import Mathlib

/-!
Shallow embedding of `pygpt_net/provider/gpt/responses.py` (class `Responses`):
the message builder (`build`), the request dispatcher (`send`), and the
eligibility gate (`is_enabled`).  External collaborators (JSON parser,
token counter, vision/audio content builders, history-fitting service,
wall clock) are passed as explicit parameters.  Python `None`-or-absent
values are modelled with `Option`; Python string truthiness with
non-emptiness.
-/

namespace PyGPT

/-- Modelled from the spec: mode identifiers `MODE_*` are imported from
`pygpt_net.core.types`, which is not among the provided sources; they are
modelled as their lowercase names.  No claim depends on the concrete
strings, only on their distinctness. -/
def MODE_CHAT : String := "chat"

def MODE_VISION : String := "vision"

def MODE_AUDIO : String := "audio"

def MODE_RESEARCH : String := "research"

def MODE_AGENT : String := "agent"

def MODE_EXPERT : String := "expert"

/-- Python truthiness of an optional string (`None` and `""` are falsy). -/
def truthyS : Option String → Bool
  | none => false
  | some s => s ≠ ""

/-- Python `str(x)` on an optional string: `str(None)` is the text `None`. -/
def pyStr : Option String → String
  | none => "None"
  | some s => s

/-- Python `s.strip()`: drop whitespace from both ends. -/
def pyStrip (s : String) : String :=
  ((s.data.dropWhile Char.isWhitespace).reverse.dropWhile Char.isWhitespace).reverse.asString

/-- Python `s.startswith(p)`. -/
def pyStartsWith (s p : String) : Bool :=
  p.data.isPrefixOf s.data

/-- Model descriptor (`ModelItem`), restricted to the fields read by
`responses.py`.  A model whose `id` is Python `None` would fault at the
`model.id.startswith` call inside `send`; ids are therefore modelled as
plain strings. -/
structure ModelItem where
  id : String
  ctx : Int
  mode : List String
  /-- `model.extra["reasoning_effort"]` when the key is present. -/
  reasoning_effort : Option String
  image_input : Bool
  audio_input : Bool
  gpt : Bool
deriving Repr, DecidableEq

/-- One entry of `item.extra["tool_calls"]`.  `Option` fields model key
absence in the underlying dict; a present value is its string form. -/
structure ToolCall where
  hasFunction : Bool
  call_id : Option String
  fname : Option String
deriving Repr, DecidableEq

/-- One entry of `item.extra["tool_output"]`: the `cmd` and `result` keys
when present, plus the Python `str()` rendering of the whole dict. -/
structure ToolOutput where
  cmd : Option String
  result : Option String
  str : String
deriving Repr, DecidableEq

/-- The parts of `item.extra` read by `build`.  `none` in `tool_calls`
or `tool_output` models an absent key or a non-list value. -/
structure CtxExtra where
  tool_calls : Option (List ToolCall)
  tool_output : Option (List ToolOutput)
deriving Repr, DecidableEq

/-- One history turn (`CtxItem`), restricted to the fields read by
`build`.  `extra = none` models a falsy or non-dict `item.extra`; the
`cmds` check `item.cmds is None or len(item.cmds) == 0` identifies `None`
with the empty list, so `cmds` is a plain list. -/
structure CtxItem where
  final_input : Option String
  final_output : Option String
  audio_id : Option String
  audio_expires_ts : Option Int
  msg_id : Option String
  cmds : List String
  extra : Option CtxExtra
deriving Repr, DecidableEq

/-- The transient per-instance state of `Responses`
(`input_tokens`, `audio_prev_id`, `audio_prev_expires_ts`,
`prev_response_id`). -/
structure RState where
  input_tokens : Int
  audio_prev_id : Option String
  audio_prev_expires_ts : Option Int
  prev_response_id : Option String
deriving Repr, DecidableEq

/-- The state installed by `Responses.__init__`. -/
def initState : RState :=
  { input_tokens := 0
    audio_prev_id := none
    audio_prev_expires_ts := none
    prev_response_id := none }

/-- The state mutations performed at the top of `build` before history
traversal: `self.prev_response_id = None` and `self.reset_tokens()`.
The audio fields are not touched there. -/
def buildReset (s : RState) : RState :=
  { s with prev_response_id := none, input_tokens := 0 }

/-- A message record appended to the `input` array: either a
`{role, content, audio?}` chat record (the `audio` component holds the
attached audio id, when any) or a `function_call_output` record. -/
inductive Msg where
  | chat (role : String) (content : String) (audio : Option String)
  | fco (call_id : String) (output : String)
deriving Repr, DecidableEq

/-- Whether a message is a `function_call_output` record. -/
def Msg.isFco : Msg → Bool
  | .fco _ _ => true
  | _ => false

/-- The audio id attached to an assistant record for one history turn
(`build`, the `MODE_AUDIO in model.mode` block): the turn's own audio id
when unexpired, else the instance-level previous audio id when the turn
has none, else nothing.  `now` is the wall clock (`time.time()`);
a falsy expiry timestamp counts as `0` and never passes the check. -/
def audioAttach (model : ModelItem) (now : Int) (s : RState) (item : CtxItem) :
    Option String :=
  if MODE_AUDIO ∈ model.mode then
    if truthyS item.audio_id then
      let ts := item.audio_expires_ts.getD 0
      if ts ≠ 0 ∧ ts > now then item.audio_id else none
    else if truthyS s.audio_prev_id then
      let ts := s.audio_prev_expires_ts.getD 0
      if ts ≠ 0 ∧ ts > now then s.audio_prev_id else none
    else none
  else none

/-- The inner `for tool_output in item.extra["tool_output"]` loop for one
eligible tool call with call id `c` and function name `n`: the first
entry whose `cmd` equals `n` yields a record with the entry's full string
form; failing that, the first entry exposing a `result` key yields a
record with the stringified result; the loop breaks at the first match. -/
def callOutputMsg (c n : String) : List ToolOutput → Option Msg
  | [] => none
  | out :: rest =>
    if out.cmd = some n then some (.fco c out.str)
    else if out.result.isSome then some (.fco c (out.result.getD ""))
    else callOutputMsg c n rest

/-- The `function_call_output` records emitted for the final turn's
recorded tool calls: each call carrying a `function` entry with truthy
`call_id` and `name` contributes at most one record, found by
`callOutputMsg` over the turn's tool-output list (when that list is
present). -/
def toolOutputMsgs (ex : CtxExtra) : List Msg :=
  match ex.tool_calls with
  | none => []
  | some calls =>
    calls.flatMap (fun tc =>
      if tc.hasFunction then
        match tc.call_id, tc.fname with
        | some c, some n =>
          if c ≠ "" ∧ n ≠ "" then
            match ex.tool_output with
            | some outs => (callOutputMsg c n outs).toList
            | none => []
          else []
        | _, _ => []
      else [])

/-- The loop-carried data of `build`'s history traversal: the message
list, the `is_tool_output` flag, and the pending `prev_response_id`. -/
structure BuildAcc where
  msgs : List Msg
  flag : Bool
  prev : Option String
deriving Repr, DecidableEq

/-- One iteration of `build`'s `for item in items` loop.  `isLast` is
`item == items[-1]`; `native` is the `func_call.native` config flag; `s`
is the instance state after the top-of-build reset (its audio fields are
only read).  In order: a user record for a truthy `final_input`; an
assistant record (with `audioAttach`) for a truthy `final_output`,
followed — on the last item with native tool calling, a dict `extra`, and
a `tool_calls` list — by the matched `function_call_output` records, the
`is_tool_output` flag being reset and then set exactly when some record
was emitted; finally `prev_response_id` is updated from a truthy
`msg_id` when the turn had no `cmds` or concluded with a tool output. -/
def processItem (model : ModelItem) (now : Int) (native : Bool) (s : RState)
    (isLast : Bool) (acc : BuildAcc) (item : CtxItem) : BuildAcc :=
  let acc :=
    if truthyS item.final_input then
      { acc with msgs := acc.msgs ++ [.chat "user" (item.final_input.getD "") none] }
    else acc
  let acc :=
    if truthyS item.final_output then
      let m : Msg := .chat "assistant" (item.final_output.getD "") (audioAttach model now s item)
      let acc := { acc with msgs := acc.msgs ++ [m], flag := false }
      if isLast ∧ native then
        match item.extra with
        | some ex =>
          let outs := toolOutputMsgs ex
          { acc with msgs := acc.msgs ++ outs, flag := outs ≠ [] }
        | none => acc
      else acc
    else acc
  if truthyS item.msg_id ∧ (item.cmds = [] ∨ acc.flag) then
    { acc with prev := item.msg_id }
  else acc

/-- `build`'s history loop over the turns returned by the
history-fitting collaborator (`ctx.get_history`); the list is empty when
the `use_context` toggle is off.  The last element plays the
`item == items[-1]` role. -/
def replayItems (model : ModelItem) (now : Int) (native : Bool) (s : RState)
    (acc : BuildAcc) : List CtxItem → BuildAcc
  | [] => acc
  | item :: rest =>
    if rest = [] then processItem model now native s true acc item
    else replayItems model now native s (processItem model now native s false acc item) rest

/-- The content of the trailing fresh-prompt record: `str(prompt)`
transformed by the vision content builder when the model takes image
input, then by the audio content builder when it takes audio input
(both external collaborators). -/
def currentContent (model : ModelItem) (vb ab : String → String) (prompt : String) :
    String :=
  let c := prompt
  let c := if model.image_input then vb c else c
  if model.audio_input then ab c else c

/-- `Responses.build`: reset the transient state, replay the fitted
history, append the fresh user prompt unless the last turn concluded
with a tool output, and account the input tokens (via the external
counter `tk`).  Returns the message list and the updated state. -/
def buildResult (model : ModelItem) (now : Int) (native : Bool)
    (vb ab : String → String) (tk : List Msg → Int)
    (prompt : String) (items : List CtxItem) (s : RState) :
    List Msg × RState :=
  let s0 := buildReset s
  let acc := replayItems model now native s0 ⟨[], false, none⟩ items
  let msgs :=
    if acc.flag then acc.msgs
    else acc.msgs ++ [.chat "user" (currentContent model vb ab prompt) none]
  (msgs, { s0 with prev_response_id := acc.prev,
                   input_tokens := s0.input_tokens + tk msgs })

/-- One entry of `context.external_functions`: the `name`, `params` and
`desc` keys (the first two may hold Python `None`). -/
structure FunctionDef where
  name : Option String
  params : Option String
  desc : String
deriving Repr, DecidableEq

/-- The skip test of `send`'s function loop:
`str(function["name"]).strip() == "" or function["name"] is None`. -/
def blankName (f : FunctionDef) : Bool :=
  pyStrip (pyStr f.name) = "" ∨ f.name = none

/-- A tool descriptor appended to the request's `tools` array.  The
parameter schema of a function tool is the opaque value produced by the
JSON-parser collaborator (`"{}"` stands for the empty default dict);
the image tool's flag records whether `partial_images` was requested,
which `send` does exactly when streaming. -/
inductive Tool where
  | function (name : String) (params : String) (desc : String)
  | webSearch
  | codeInterpreter
  | imageGen (streamed : Bool)
deriving Repr, DecidableEq

/-- `send`'s function-descriptor loop (lines building `tools` from
`functions`): blank-or-missing names are skipped; a non-empty `params`
string goes through the JSON parser `parse`, whose failure propagates
uncaught; surviving entries become function tool descriptors in order. -/
def buildFunctionTools (parse : String → Except String String) :
    List FunctionDef → Except String (List Tool)
  | [] => .ok []
  | f :: rest =>
    if blankName f then buildFunctionTools parse rest
    else
      match (match f.params with
             | some p => if p ≠ "" then parse p else .ok "{}"
             | none => .ok "{}") with
      | .error e => .error e
      | .ok ps =>
        match buildFunctionTools parse rest with
        | .error e => .error e
        | .ok ts => .ok (.function (f.name.getD "") ps f.desc :: ts)

/-- One keyword argument of the `client.responses.create` call
(`response_kwargs`). -/
inductive Kw where
  | reasoning (effort : String)
  | tools (ts : List Tool)
  | prevResponseId (id : String)
  | instructions (s : String)
deriving Repr, DecidableEq

/-- The dict key a keyword argument is stored under. -/
def Kw.key : Kw → String
  | .reasoning _ => "reasoning"
  | .tools _ => "tools"
  | .prevResponseId _ => "previous_response_id"
  | .instructions _ => "instructions"

/-- The request descriptor handed to `client.responses.create`: the
positional `input`, `model` and `stream` arguments plus the assembled
`response_kwargs`. -/
structure Request where
  input : List Msg
  model : String
  stream : Bool
  kwargs : List Kw
deriving Repr, DecidableEq

/-- The value stored under the `tools` key of a keyword-argument list,
when present. -/
def kwTools : List Kw → Option (List Tool)
  | [] => none
  | .tools ts :: _ => some ts
  | _ :: rest => kwTools rest

/-- The `tools` field of the dispatched request, when present. -/
def Request.toolsField (r : Request) : Option (List Tool) :=
  kwTools r.kwargs

/-- Modelled from the spec: the hard tool-disable denylist
`OPENAI_DISABLE_TOOLS` is imported from `pygpt_net.core.types`, which is
not among the provided sources.  The spec singles out "two legacy
reasoning models that reject tool parameters"; the denylist is modelled
as those two ids, matching the explicit exclusion list in `send`. -/
def OPENAI_DISABLE_TOOLS : List String := ["o1-mini", "o1-preview"]

/-- The configuration flags and imported per-tool denylists read by
`send`.  The three `dis_*` lists model the
`OPENAI_REMOTE_TOOL_DISABLE_*` constants (imported from outside the
provided sources), left arbitrary here. -/
structure Cfg where
  remote_web_search : Bool
  remote_code_interpreter : Bool
  remote_image : Bool
  func_call_native : Bool
  dis_web_search : List String
  dis_code_interpreter : List String
  dis_image : List String
deriving Repr, DecidableEq

/-- The remote-tool extension block of `send`: for models whose id does
not start with `o1` or `o3`, conditionally append the web-search,
code-interpreter and image-generation descriptors, each gated by its
per-model denylist and its global toggle; the image descriptor requests
partial images exactly when streaming. -/
def remoteTools (cfg : Cfg) (model : ModelItem) (stream : Bool)
    (tools : List Tool) : List Tool :=
  if ¬ pyStartsWith model.id "o1" ∧ ¬ pyStartsWith model.id "o3" then
    let t1 := if model.id ∉ cfg.dis_web_search ∧ cfg.remote_web_search then
        tools ++ [Tool.webSearch] else tools
    let t2 := if model.id ∉ cfg.dis_code_interpreter ∧ cfg.remote_code_interpreter then
        t1 ++ [Tool.codeInterpreter] else t1
    if model.id ∉ cfg.dis_image ∧ cfg.remote_image then
      t2 ++ [Tool.imageGen stream] else t2
  else tools

/-- The `response_kwargs` dict in insertion order: the reasoning hint
when the model carries a `reasoning_effort` extra; the tool list when
the model is not one of the two excluded reasoning models and the list
is non-empty; the previous response id when truthy; the system prompt as
top-level `instructions` when truthy. -/
def kwargsFrom (model : ModelItem) (tools : List Tool) (prevId : Option String)
    (sys : String) : List Kw :=
  (match model.reasoning_effort with
   | some e => [Kw.reasoning e]
   | none => [])
  ++ (if model.id ∉ ["o1-mini", "o1-preview"] ∧ tools.length > 0 then
        [Kw.tools tools] else [])
  ++ (if truthyS prevId then [Kw.prevResponseId (prevId.getD "")] else [])
  ++ (if sys ≠ "" then [Kw.instructions sys] else [])

/-- The keyword-argument assembly of `send`: build the function tools
(JSON failures propagate), drop them all for denylisted models, extend
with remote tools, then lay out `response_kwargs`. -/
def assembleKwargs (parse : String → Except String String) (cfg : Cfg)
    (model : ModelItem) (stream : Bool) (functions : Option (List FunctionDef))
    (prevId : Option String) (sys : String) : Except String (List Kw) :=
  match (match functions with
         | some fs => buildFunctionTools parse fs
         | none => .ok []) with
  | .error e => .error e
  | .ok ftools =>
    let tools0 := if model.id ∈ OPENAI_DISABLE_TOOLS then [] else ftools
    let tools := remoteTools cfg model stream tools0
    .ok (kwargsFrom model tools prevId sys)

/-- The max-output-tokens clamp of `send`: when the request asks for a
positive budget that together with the message tokens overflows the
model context window, replace it by `ctx - msgTokens - 1`, floored at
zero. -/
def clampMaxTokens (maxTokens msgTokens ctx : Int) : Int :=
  if maxTokens > 0 ∧ msgTokens + maxTokens > ctx then
    if ctx - msgTokens - 1 < 0 then 0 else ctx - msgTokens - 1
  else maxTokens

/-- `Responses.send` up to the external completion call: build the
messages, count them (external counter `tk`), compute the clamped token
budget (which the source never uses afterwards), assemble the keyword
arguments using the post-build `prev_response_id`, and produce the
request descriptor handed to `client.responses.create`; a JSON parse
failure aborts before any request exists. -/
def send (parse : String → Except String String) (cfg : Cfg)
    (model : ModelItem) (stream : Bool) (functions : Option (List FunctionDef))
    (maxTokens : Int) (sys prompt : String) (now : Int)
    (vb ab : String → String) (tk : List Msg → Int)
    (items : List CtxItem) (s : RState) : Except String Request :=
  let br := buildResult model now cfg.func_call_native vb ab tk prompt items s
  let msgTokens := tk br.1
  let _clamped := clampMaxTokens maxTokens msgTokens model.ctx
  match assembleKwargs parse cfg model stream functions br.2.prev_response_id sys with
  | .error e => .error e
  | .ok kwargs =>
    .ok { input := br.1, model := model.id, stream := stream, kwargs := kwargs }

/-- The configuration and controller probes read by `is_enabled`. -/
structure GateCfg where
  api_use_responses : Bool
  agent_api_use_responses : Bool
  experts_api_use_responses : Bool
  experts_internal_api_use_responses : Bool
  legacy_enabled : Bool
  experts_enabled : Bool
deriving Repr, DecidableEq

/-- The allowed modes of the Responses API path. -/
def RESPONSES_ALLOWED_MODES : List String :=
  [ MODE_CHAT, MODE_RESEARCH, MODE_AGENT, MODE_EXPERT]

/-- `Responses.is_enabled`: default false; true only for a GPT-family
model, both modes in the allowed set and the global toggle on; then
narrowed by the legacy-agent and experts sub-toggles, and for internal
expert calls decided solely by the dedicated internal sub-toggle. -/
def is_enabled (cfg : GateCfg) (model : Option ModelItem) (mode : String)
    (parent_mode : Option String) (is_expert_call : Bool) : Bool :=
  match model with
  | none => false
  | some m =>
    if m.gpt then
      let parentOk : Bool := match parent_mode with
        | some pm => RESPONSES_ALLOWED_MODES.contains pm
        | none => false
      if RESPONSES_ALLOWED_MODES.contains mode && parentOk
          && cfg.api_use_responses then
        let allowed := true
        let allowed := if cfg.legacy_enabled ∧ ¬ cfg.agent_api_use_responses then
            false else allowed
        let allowed := if cfg.experts_enabled ∧ ¬ cfg.experts_api_use_responses then
            false else allowed
        if is_expert_call then cfg.experts_internal_api_use_responses else allowed
      else false
    else false

/-! Concrete fixtures used by the closed witness and counterexample
theorems below. -/

/-- A plain GPT chat model off every denylist. -/
def mdl0 : ModelItem :=
  { id := "gpt-4o", ctx := 8000, mode := [ MODE_CHAT], reasoning_effort := none,
    image_input := false, audio_input := false, gpt := true }

/-- A model on the tool-disable denylist. -/
def mdlO1 : ModelItem :=
  { id := "o1-mini", ctx := 8000, mode := [ MODE_CHAT], reasoning_effort := none,
    image_input := false, audio_input := false, gpt := true }

/-- An audio-capable model. -/
def mdlAudio : ModelItem :=
  { id := "gpt-4o-audio-preview", ctx := 8000, mode := [ MODE_CHAT, MODE_AUDIO],
    reasoning_effort := none, image_input := false, audio_input := true, gpt := true }

/-- Configuration with every remote-tool toggle on and empty remote
denylists. -/
def cfgAll : Cfg :=
  { remote_web_search := true, remote_code_interpreter := true, remote_image := true,
    func_call_native := true, dis_web_search := [], dis_code_interpreter := [], dis_image := [] }

/-- Configuration with every remote-tool toggle off. -/
def cfgOff : Cfg :=
  { remote_web_search := false, remote_code_interpreter := false, remote_image := false,
    func_call_native := true, dis_web_search := [], dis_code_interpreter := [], dis_image := [] }

/-- A JSON-parser collaborator consistent with `json.loads`: the empty
schema parses, the bare identifier `x` (invalid JSON) raises. -/
def parse0 : String → Except String String :=
  fun s => if s = "" then .ok "{}" else .error "Expecting value"

/-- Gate configuration with the global Responses-API toggle off and
every other probe on. -/
def gateOff : GateCfg :=
  { api_use_responses := false, agent_api_use_responses := true,
    experts_api_use_responses := true, experts_internal_api_use_responses := true,
    legacy_enabled := true, experts_enabled := true }

/-- A final turn with an empty recorded output but a recorded tool call
whose tool-output list holds a matching generic `result` entry. -/
def c5noOutputItem : CtxItem :=
  { final_input := none, final_output := none, audio_id := none, audio_expires_ts := none,
    msg_id := none, cmds := [],
    extra := some
      { tool_calls := some [{ hasFunction := true, call_id := some "c1", fname := some "f" }],
        tool_output := some [{ cmd := none, result := some "ok", str := "out" }] } }

/-- The same final turn as `c5noOutputItem` but with a non-empty
recorded output. -/
def c5doneItem : CtxItem :=
  { final_input := some "run it", final_output := some "done", audio_id := none,
    audio_expires_ts := none, msg_id := none, cmds := [],
    extra := some
      { tool_calls := some [{ hasFunction := true, call_id := some "c1", fname := some "f" }],
        tool_output := some [{ cmd := none, result := some "ok", str := "out" }] } }

/-- A turn carrying a stored audio reference `a1` expiring at 5000. -/
def audioItem : CtxItem :=
  { final_input := some "hi", final_output := some "hello", audio_id := some "a1",
    audio_expires_ts := some 5000, msg_id := none, cmds := [], extra := none }

/-! Helper lemmas shared by the claim theorems. -/

/-- A keyword list with no tools entry has no tools field. -/
theorem kwTools_no_tools (ks : List Kw) (h : ∀ ts, Kw.tools ts ∉ ks) :
    kwTools ks = none := by
  induction ks with
  | nil => rfl
  | cons k rest ih =>
    cases k with
    | tools ts => exact absurd (List.mem_cons_self _ _) (h ts)
    | reasoning e =>
      simp only [kwTools]
      exact ih (fun ts hts => h ts (List.mem_cons_of_mem _ hts))
    | prevResponseId i =>
      simp only [kwTools]
      exact ih (fun ts hts => h ts (List.mem_cons_of_mem _ hts))
    | instructions i =>
      simp only [kwTools]
      exact ih (fun ts hts => h ts (List.mem_cons_of_mem _ hts))

/-- Every assembled keyword argument is stored under one of the four keys the dispatcher can produce. -/
theorem kwargsFrom_mem_key (model : ModelItem) (tools : List Tool)
    (prevId : Option String) (sys : String) (k : Kw)
    (hk : k ∈ kwargsFrom model tools prevId sys) :
    k.key ∈ ["reasoning", "tools", "previous_response_id", "instructions"] := by
  unfold kwargsFrom at hk
  simp only [List.mem_append] at hk
  rcases hk with ((h | h) | h) | h
  · cases hre : model.reasoning_effort <;> rw [hre] at h <;> simp at h
    rw [h]; simp [Kw.key]
  · split at h <;> simp at h
    rw [h]; simp [Kw.key]
  · split at h <;> simp at h
    rw [h]; simp [Kw.key]
  · split at h <;> simp at h
    rw [h]; simp [Kw.key]

/-- For the two excluded reasoning models the assembled keyword list never carries a tools entry. -/
theorem kwargsFrom_excluded_no_tools (model : ModelItem) (tools : List Tool)
    (prevId : Option String) (sys : String)
    (h : model.id ∈ ["o1-mini", "o1-preview"]) :
    kwTools (kwargsFrom model tools prevId sys) = none := by
  apply kwTools_no_tools
  intro ts hts
  unfold kwargsFrom at hts
  simp only [List.mem_append] at hts
  rcases hts with ((h1 | h1) | h1) | h1
  · cases hre : model.reasoning_effort <;> rw [hre] at h1 <;> simp at h1
  · split at h1
    · rename_i hg
      exact absurd h hg.1
    · simp at h1
  · split at h1 <;> simp at h1
  · split at h1 <;> simp at h1

/-- A successful keyword assembly always has the `kwargsFrom` layout for some tool list. -/
theorem assembleKwargs_ok_shape (parse : String → Except String String) (cfg : Cfg)
    (model : ModelItem) (stream : Bool) (functions : Option (List FunctionDef))
    (prevId : Option String) (sys : String) (kwargs : List Kw)
    (h : assembleKwargs parse cfg model stream functions prevId sys = .ok kwargs) :
    ∃ tools, kwargs = kwargsFrom model tools prevId sys := by
  unfold assembleKwargs at h
  split at h
  · cases h
  · simp only [Except.ok.injEq] at h
    exact ⟨_, h.symm⟩

/-- A successful dispatch produces exactly the built messages and the `kwargsFrom` layout. -/
theorem send_ok_shape (parse : String → Except String String) (cfg : Cfg)
    (model : ModelItem) (stream : Bool) (functions : Option (List FunctionDef))
    (maxT : Int) (sys prompt : String) (now : Int)
    (vb ab : String → String) (tk : List Msg → Int)
    (items : List CtxItem) (s : RState) (req : Request)
    (h : send parse cfg model stream functions maxT sys prompt now vb ab tk items s = .ok req) :
    ∃ tools,
      req = { input := (buildResult model now cfg.func_call_native vb ab tk prompt items s).1,
              model := model.id, stream := stream,
              kwargs := kwargsFrom model tools
                (buildResult model now cfg.func_call_native vb ab tk prompt items s).2.prev_response_id sys } := by
  unfold send at h
  simp only [] at h
  split at h
  · cases h
  · rename_i kwargs heq
    simp only [Except.ok.injEq] at h
    obtain ⟨tools, ht⟩ := assembleKwargs_ok_shape _ _ _ _ _ _ _ _ heq
    subst ht
    exact ⟨tools, h.symm⟩

/-- Replaying a history with last element `x` processes the prefix as non-last and `x` as last. -/
theorem replayItems_append (model : ModelItem) (now : Int) (native : Bool) (s : RState)
    (l : List CtxItem) (x : CtxItem) (acc : BuildAcc) :
    replayItems model now native s acc (l ++ [x])
      = processItem model now native s true
          (l.foldl (fun a it => processItem model now native s false a it) acc) x := by
  induction l generalizing acc with
  | nil => simp [replayItems]
  | cons a l ih =>
    simp only [List.cons_append, List.foldl_cons]
    rw [replayItems]
    rw [if_neg (by simp)]
    exact ih _

/-- Processing a non-last turn never raises the tool-output flag. -/
theorem processItem_notLast_flag (model : ModelItem) (now : Int) (native : Bool)
    (s : RState) (acc : BuildAcc) (item : CtxItem) (h : acc.flag = false) :
    (processItem model now native s false acc item).flag = false := by
  unfold processItem
  simp only []
  rw [if_neg (show ¬(false = true ∧ native = true) by simp)]
  by_cases hi : truthyS item.final_input = true <;>
    by_cases ho : truthyS item.final_output = true <;>
      simp [hi, ho, h] <;> split <;> simp [h]

/-- Folding non-last turns preserves a lowered tool-output flag. -/
theorem foldl_notLast_flag (model : ModelItem) (now : Int) (native : Bool)
    (s : RState) (l : List CtxItem) (acc : BuildAcc) (h : acc.flag = false) :
    (l.foldl (fun a it => processItem model now native s false a it) acc).flag = false := by
  induction l generalizing acc with
  | nil => exact h
  | cons a l ih =>
    simp only [List.foldl_cons]
    exact ih _ (processItem_notLast_flag model now native s acc a h)

/-- Processing a non-last turn emits no `function_call_output` record. -/
theorem processItem_notLast_fco (model : ModelItem) (now : Int) (native : Bool)
    (s : RState) (acc : BuildAcc) (item : CtxItem) :
    ((processItem model now native s false acc item).msgs).filter Msg.isFco
      = acc.msgs.filter Msg.isFco := by
  unfold processItem
  simp only []
  rw [if_neg (show ¬(false = true ∧ native = true) by simp)]
  by_cases hi : truthyS item.final_input = true <;>
    by_cases ho : truthyS item.final_output = true <;>
      simp [hi, ho, List.filter_append, Msg.isFco] <;> split <;>
        simp [List.filter_append, Msg.isFco]

/-- Folding non-last turns emits no `function_call_output` record. -/
theorem foldl_notLast_fco (model : ModelItem) (now : Int) (native : Bool)
    (s : RState) (l : List CtxItem) (acc : BuildAcc) :
    ((l.foldl (fun a it => processItem model now native s false a it) acc).msgs).filter Msg.isFco
      = acc.msgs.filter Msg.isFco := by
  induction l generalizing acc with
  | nil => rfl
  | cons a l ih =>
    simp only [List.foldl_cons]
    rw [ih, processItem_notLast_fco]

/-- When no entry matches the command name and some entry exposes a result, the inner loop emits exactly one record for the call. -/
theorem callOutputMsg_of_result (c n : String) (outs : List ToolOutput)
    (hnm : ∀ out ∈ outs, out.cmd ≠ some n)
    (hres : ∃ out ∈ outs, out.result.isSome = true) :
    ∃ r, callOutputMsg c n outs = some (Msg.fco c r) := by
  induction outs with
  | nil => simp at hres
  | cons o rest ih =>
    rw [callOutputMsg]
    rw [if_neg (by exact fun hc => hnm o (List.mem_cons_self _ _) hc)]
    by_cases ho : o.result.isSome
    · exact ⟨o.result.getD "", by rw [if_pos ho]⟩
    · rw [if_neg ho]
      apply ih
      · exact fun out hm => hnm out (List.mem_cons_of_mem _ hm)
      · rcases hres with ⟨out, hm, hr⟩
        rcases List.mem_cons.mp hm with rfl | hm2
        · exact absurd hr ho
        · exact ⟨out, hm2, hr⟩

/-- A last turn without recorded tool calls leaves the tool-output flag lowered. -/
theorem processItem_last_flag (model : ModelItem) (now : Int) (native : Bool)
    (s : RState) (acc : BuildAcc) (item : CtxItem)
    (hacc : acc.flag = false)
    (hex : item.extra.bind CtxExtra.tool_calls = none) :
    (processItem model now native s true acc item).flag = false := by
  have htool : ∀ ex, item.extra = some ex → toolOutputMsgs ex = [] := by
    intro ex he
    rw [he] at hex
    simp only [Option.some_bind] at hex
    unfold toolOutputMsgs
    rw [hex]
  unfold processItem
  simp only []
  cases hext : item.extra with
  | none =>
    by_cases hi : truthyS item.final_input = true <;>
      by_cases ho : truthyS item.final_output = true <;>
        by_cases hn : native = true <;>
          simp [hi, ho, hn, hacc, hext] <;> split <;> simp [hacc]
  | some ex =>
    have ht := htool ex hext
    by_cases hi : truthyS item.final_input = true <;>
      by_cases ho : truthyS item.final_output = true <;>
        by_cases hn : native = true <;>
          simp [hi, ho, hn, hacc, hext, ht] <;> split <;> simp [hacc]

/-- A last turn whose extra yields one matched record raises the tool-output flag. -/
theorem processItem_last_matched_flag (model : ModelItem) (now : Int) (s : RState)
    (acc : BuildAcc) (item : CtxItem) (o : String) (ex : CtxExtra) (m : Msg)
    (hout : item.final_output = some o) (ho : o ≠ "")
    (hex : item.extra = some ex) (htm : toolOutputMsgs ex = [m]) :
    (processItem model now true s true acc item).flag = true := by
  have hT : truthyS item.final_output = true := by
    rw [hout]; simp [truthyS, ho]
  unfold processItem
  simp only []
  by_cases hi : truthyS item.final_input = true <;>
    simp [hi, hT, hex, htm] <;> split <;> simp

/-- A last turn whose extra yields one matched record appends it after chat records only. -/
theorem processItem_last_matched_msgs (model : ModelItem) (now : Int) (s : RState)
    (acc : BuildAcc) (item : CtxItem) (o : String) (ex : CtxExtra) (m : Msg)
    (hout : item.final_output = some o) (ho : o ≠ "")
    (hex : item.extra = some ex) (htm : toolOutputMsgs ex = [m]) :
    ∃ mid, (processItem model now true s true acc item).msgs = acc.msgs ++ mid ++ [m]
      ∧ mid.filter Msg.isFco = [] := by
  have hT : truthyS (some o) = true := by simp [truthyS, ho]
  unfold processItem
  simp only []
  by_cases hi : truthyS item.final_input = true
  · simp [hi, hT, hex, htm, hout]
    split <;>
      exact ⟨[ Msg.chat "user" (item.final_input.getD "") none,
               Msg.chat "assistant" o (audioAttach model now s item)],
             by simp, by simp [Msg.isFco]⟩
  · simp [hi, hT, hex, htm, hout]
    split <;>
      exact ⟨[ Msg.chat "assistant" o (audioAttach model now s item)],
             by simp, by simp [Msg.isFco]⟩

/-- A single eligible recorded call with a match emits exactly that record. -/
theorem toolOutputMsgs_single (c n : String) (ex : CtxExtra) (outs : List ToolOutput) (m : Msg)
    (hcalls : ex.tool_calls = some [{ hasFunction := true, call_id := some c, fname := some n }])
    (hc : c ≠ "") (hn : n ≠ "")
    (houts : ex.tool_output = some outs)
    (hm : callOutputMsg c n outs = some m) :
    toolOutputMsgs ex = [m] := by
  unfold toolOutputMsgs
  rw [hcalls]
  simp [hc, hn, houts, hm]

/-- A turn with non-empty output always emits its assistant record with the attached audio reference. -/
theorem processItem_assistant_mem (model : ModelItem) (now : Int) (native : Bool)
    (s : RState) (isLast : Bool) (acc : BuildAcc) (item : CtxItem) (o : String)
    (hout : item.final_output = some o) (ho : o ≠ "") :
    Msg.chat "assistant" o (audioAttach model now s item)
      ∈ (processItem model now native s isLast acc item).msgs := by
  have hT : truthyS (some o) = true := by simp [truthyS, ho]
  unfold processItem
  simp only []
  by_cases hi : truthyS item.final_input = true <;>
    cases hext : item.extra <;>
      simp [hi, hT, hout, hext] <;>
        split <;> (try split) <;> (try split) <;> simp [List.mem_append]

/-! Claim theorems. -/

/-- C1 (confirmed): for every model on the tool-disable denylist
(`OPENAI_DISABLE_TOOLS`, modelled from the spec), the request dispatched by
`send` has its `tools` field absent or empty, for every combination of the
remote-tool configuration toggles and denylists, functions, streaming flag
and remaining inputs. -/
theorem c1_denylist_drops_tools (parse : String → Except String String) (cfg : Cfg)
    (model : ModelItem) (stream : Bool) (functions : Option (List FunctionDef))
    (maxT : Int) (sys prompt : String) (now : Int)
    (vb ab : String → String) (tk : List Msg → Int)
    (items : List CtxItem) (s : RState) (req : Request)
    (hm : model.id ∈ OPENAI_DISABLE_TOOLS)
    (h : send parse cfg model stream functions maxT sys prompt now vb ab tk items s = .ok req) :
    req.toolsField = none ∨ req.toolsField = some [] := by
  obtain ⟨tools, hreq⟩ := send_ok_shape parse cfg model stream functions maxT sys prompt now vb ab tk items s req h
  subst hreq
  left
  exact kwargsFrom_excluded_no_tools model tools _ sys hm

/-- Witness for C1 at a concrete denylisted model with every remote toggle on. -/
theorem c1_witness :
    "o1-mini" ∈ OPENAI_DISABLE_TOOLS
    ∧ (Request.toolsField ⟨[ Msg.chat "user" "p" none], "o1-mini", true, []⟩ = none
       ∨ Request.toolsField ⟨[ Msg.chat "user" "p" none], "o1-mini", true, []⟩ = some []) :=
  ⟨by decide,
   c1_denylist_drops_tools parse0 cfgAll mdlO1 true none 0 "" "p" 0 id id (fun _ => 0)
     [] initState ⟨[ Msg.chat "user" "p" none], "o1-mini", true, []⟩ (by decide) rfl⟩

/-- C2 counterexample: with `msg_tokens = 121`, `max_tokens = 50` and
`model.ctx = 120` the clamp floors to zero and the message tokens alone
already exceed the context window, so `msg_tokens + clamped` exceeds
`model.ctx`, refuting the claim as stated. -/
theorem c2_counterexample :
    clampMaxTokens 50 121 120 = 0 ∧ 121 + clampMaxTokens 50 121 120 > 120 := by decide

/-- C2 (amended): for every dispatch with a positive requested
max-output-tokens whose message token count does not exceed the model
context window, the clamped value keeps `msg_tokens + max_tokens` within
the window and is never negative; the concrete instance
`msg_tokens = 100`, `max_tokens = 50`, `model.ctx = 120` clamps to 19. -/
theorem c2_clamp_within_ctx (maxT msgT ctx : Int) (hpos : 0 < maxT) (hmsg : msgT ≤ ctx) :
    msgT + clampMaxTokens maxT msgT ctx ≤ ctx
    ∧ 0 ≤ clampMaxTokens maxT msgT ctx
    ∧ clampMaxTokens 50 100 120 = 19 := by
  refine ⟨?_, ?_, by decide⟩ <;>
    · unfold clampMaxTokens
      split <;> try split
      all_goals omega

/-- Witness for C2 at the spec instance 100/50/120. -/
theorem c2_witness :
    (0 : Int) < 50 ∧ (100 : Int) ≤ 120
    ∧ (100 + clampMaxTokens 50 100 120 ≤ 120 ∧ 0 ≤ clampMaxTokens 50 100 120
       ∧ clampMaxTokens 50 100 120 = 19) :=
  ⟨by decide, by decide, c2_clamp_within_ctx 50 100 120 (by decide) (by decide)⟩

/-- C3 counterexample: the reset performed at the top of `build` does not
restore the initial state when a previous audio reference is stored, so
not all RequestState fields are reset, refuting the claim as stated. -/
theorem c3_counterexample :
    buildReset { input_tokens := 7, audio_prev_id := some "a1",
                 audio_prev_expires_ts := some 99, prev_response_id := some "r1" }
      ≠ initState := by decide

/-- C3 (amended): at the start of every `build` the running input-token
counter and the last-used response identifier are reset to their initial
values, while the last-used audio identifier and its expiry timestamp are
left unchanged, and remain unchanged through the whole build. -/
theorem c3_reset_partial (s : RState) (model : ModelItem) (now : Int) (native : Bool)
    (vb ab : String → String) (tk : List Msg → Int) (prompt : String) (items : List CtxItem) :
    (buildReset s).input_tokens = 0
    ∧ (buildReset s).prev_response_id = none
    ∧ (buildReset s).audio_prev_id = s.audio_prev_id
    ∧ (buildReset s).audio_prev_expires_ts = s.audio_prev_expires_ts
    ∧ (buildResult model now native vb ab tk prompt items s).2.audio_prev_id = s.audio_prev_id
    ∧ (buildResult model now native vb ab tk prompt items s).2.audio_prev_expires_ts
        = s.audio_prev_expires_ts :=
  ⟨rfl, rfl, rfl, rfl, rfl, rfl⟩

/-- C4 (confirmed): the request passed to the external completion call never
carries a max-output-tokens field; every keyword argument is one of
`reasoning`, `tools`, `previous_response_id`, `instructions` (besides the
positional `input`, `model` and `stream`). -/
theorem c4_no_max_output_tokens (parse : String → Except String String) (cfg : Cfg)
    (model : ModelItem) (stream : Bool) (functions : Option (List FunctionDef))
    (maxT : Int) (sys prompt : String) (now : Int)
    (vb ab : String → String) (tk : List Msg → Int)
    (items : List CtxItem) (s : RState) (req : Request)
    (h : send parse cfg model stream functions maxT sys prompt now vb ab tk items s = .ok req) :
    "max_output_tokens" ∉ req.kwargs.map Kw.key
    ∧ ∀ k ∈ req.kwargs, k.key ∈ ["reasoning", "tools", "previous_response_id", "instructions"] := by
  obtain ⟨tools, hreq⟩ := send_ok_shape parse cfg model stream functions maxT sys prompt now vb ab tk items s req h
  subst hreq
  constructor
  · intro hmem
    simp only [List.mem_map] at hmem
    obtain ⟨k, hk, hkey⟩ := hmem
    have hks := kwargsFrom_mem_key model tools _ sys k hk
    rw [hkey] at hks
    exact absurd hks (by decide)
  · intro k hk
    exact kwargsFrom_mem_key model tools _ sys k hk

/-- Witness for C4 at a concrete dispatch with remote tools attached. -/
theorem c4_witness :
    "max_output_tokens" ∉
      (Request.kwargs ⟨[ Msg.chat "user" "p" none], "gpt-4o", true,
        [ Kw.tools [ Tool.webSearch, Tool.codeInterpreter, Tool.imageGen true]]⟩).map Kw.key
    ∧ ∀ k ∈ Request.kwargs ⟨[ Msg.chat "user" "p" none], "gpt-4o", true,
        [ Kw.tools [ Tool.webSearch, Tool.codeInterpreter, Tool.imageGen true]]⟩,
        k.key ∈ ["reasoning", "tools", "previous_response_id", "instructions"] :=
  c4_no_max_output_tokens parse0 cfgAll mdl0 true none 0 "" "p" 0 id id (fun _ => 0)
    [] initState ⟨[ Msg.chat "user" "p" none], "gpt-4o", true,
      [ Kw.tools [ Tool.webSearch, Tool.codeInterpreter, Tool.imageGen true]]⟩ rfl

/-- C5 counterexample: a final history turn with native tool calling, an
eligible recorded tool call, a result-bearing tool output and no matching
command name, but an empty recorded output, emits no `function_call_output`
record and appends the fresh prompt, refuting the claim as stated. -/
theorem c5_counterexample :
    (buildResult mdl0 0 true id id (fun _ => 0) "p" [c5noOutputItem] initState).1
      = [ Msg.chat "user" "p" none]
    ∧ ((buildResult mdl0 0 true id id (fun _ => 0) "p" [c5noOutputItem] initState).1.filter
        Msg.isFco) = [] := by
  exact ⟨rfl, rfl⟩

/-- C5 (amended): for every build whose final history turn has a non-empty
recorded output, native tool calling enabled and one recorded tool call
with truthy call id and function name, if the tool-output list contains a
result-bearing entry and no entry matching the command name, then exactly
one `function_call_output` record with that call id is emitted and the
built message list ends with it, the fresh prompt being suppressed. -/
theorem c5_matched_tool_output (model : ModelItem) (now : Int)
    (vb ab : String → String) (tk : List Msg → Int) (prompt : String)
    (pre : List CtxItem) (item : CtxItem) (s : RState)
    (o c n : String) (ex : CtxExtra) (outs : List ToolOutput)
    (hout : item.final_output = some o) (ho : o ≠ "")
    (hex : item.extra = some ex)
    (hcalls : ex.tool_calls = some [{ hasFunction := true, call_id := some c, fname := some n }])
    (hc : c ≠ "") (hn : n ≠ "")
    (houts : ex.tool_output = some outs)
    (hnm : ∀ out ∈ outs, out.cmd ≠ some n)
    (hres : ∃ out ∈ outs, out.result.isSome = true) :
    ∃ r, (buildResult model now true vb ab tk prompt (pre ++ [item]) s).1.filter Msg.isFco
            = [ Msg.fco c r]
      ∧ (buildResult model now true vb ab tk prompt (pre ++ [item]) s).1.getLast?
            = some (Msg.fco c r) := by
  obtain ⟨r, hcall⟩ := callOutputMsg_of_result c n outs hnm hres
  have htm : toolOutputMsgs ex = [ Msg.fco c r] :=
    toolOutputMsgs_single c n ex outs (Msg.fco c r) hcalls hc hn houts hcall
  have hflag := processItem_last_matched_flag model now (buildReset s)
    (pre.foldl (fun a it => processItem model now true (buildReset s) false a it)
      ⟨[], false, none⟩) item o ex (Msg.fco c r) hout ho hex htm
  obtain ⟨mid, hmsgs, hmid⟩ := processItem_last_matched_msgs model now (buildReset s)
    (pre.foldl (fun a it => processItem model now true (buildReset s) false a it)
      ⟨[], false, none⟩) item o ex (Msg.fco c r) hout ho hex htm
  have hpreF : ((pre.foldl (fun a it => processItem model now true (buildReset s) false a it)
      (⟨[], false, none⟩ : BuildAcc)).msgs).filter Msg.isFco = [] := by
    rw [foldl_notLast_fco]
    rfl
  refine ⟨r, ?_, ?_⟩
  · unfold buildResult
    simp only []
    rw [replayItems_append, if_pos hflag, hmsgs]
    simp [List.filter_append, hpreF, hmid, Msg.isFco]
  · unfold buildResult
    simp only []
    rw [replayItems_append, if_pos hflag, hmsgs, List.getLast?_concat]

/-- Witness for C5 at a concrete matched tool exchange. -/
theorem c5_witness :
    ∃ r, (buildResult mdl0 0 true id id (fun _ => 0) "p" ([] ++ [c5doneItem]) initState).1.filter
            Msg.isFco = [ Msg.fco "c1" r]
      ∧ (buildResult mdl0 0 true id id (fun _ => 0) "p" ([] ++ [c5doneItem]) initState).1.getLast?
            = some (Msg.fco "c1" r) :=
  c5_matched_tool_output mdl0 0 id id (fun _ => 0) "p" [] c5doneItem initState
    "done" "c1" "f"
    { tool_calls := some [{ hasFunction := true, call_id := some "c1", fname := some "f" }],
      tool_output := some [{ cmd := none, result := some "ok", str := "out" }] }
    [{ cmd := none, result := some "ok", str := "out" }]
    rfl (by decide) rfl rfl (by decide) (by decide) rfl (by decide) (by decide)

/-- C6 (confirmed): for every replayed history whose final turn carries no
tool-call metadata, the message list returned by `build` ends with a
user-role record whose content is built from the current prompt. -/
theorem c6_fresh_prompt_last (model : ModelItem) (now : Int) (native : Bool)
    (vb ab : String → String) (tk : List Msg → Int) (prompt : String)
    (items : List CtxItem) (s : RState)
    (hlast : ∀ it, items.getLast? = some it → it.extra.bind CtxExtra.tool_calls = none) :
    (buildResult model now native vb ab tk prompt items s).1.getLast?
      = some (Msg.chat "user" (currentContent model vb ab prompt) none) := by
  rcases List.eq_nil_or_concat items with rfl | ⟨l, x, rfl⟩
  · simp [buildResult, replayItems]
  · simp only [List.concat_eq_append] at hlast ⊢
    have hx := hlast x (by simp [List.getLast?_concat])
    unfold buildResult
    simp only []
    rw [replayItems_append]
    have hflag : (processItem model now native (buildReset s) true
        (l.foldl (fun a it => processItem model now native (buildReset s) false a it)
          ⟨[], false, none⟩) x).flag = false :=
      processItem_last_flag model now native (buildReset s) _ x
        (foldl_notLast_flag model now native (buildReset s) l _ rfl) hx
    simp [hflag, List.getLast?_concat]

/-- Witness for C6 with an empty replayed history. -/
theorem c6_witness :
    (buildResult mdl0 0 true id id (fun _ => 0) "p" [] initState).1.getLast?
      = some (Msg.chat "user" (currentContent mdl0 id id "p") none) :=
  c6_fresh_prompt_last mdl0 0 true id id (fun _ => 0) "p" [] initState
    (fun it h => by simp at h)

/-- C7 (confirmed): `is_enabled` returns false whenever the global
api-use-responses toggle is off, for every model, mode, parent mode and
expert-call flag, including internal expert calls with the internal
sub-toggle on. -/
theorem c7_gate_requires_global_toggle (cfg : GateCfg) (model : Option ModelItem)
    (mode : String) (parent_mode : Option String) (is_expert_call : Bool)
    (h : cfg.api_use_responses = false) :
    is_enabled cfg model mode parent_mode is_expert_call = false := by
  cases model <;> simp [is_enabled, h]

/-- Witness for C7 with every other probe and sub-toggle on. -/
theorem c7_witness :
    is_enabled gateOff (some mdl0) MODE_CHAT (some MODE_CHAT) true = false :=
  c7_gate_requires_global_toggle gateOff (some mdl0) MODE_CHAT (some MODE_CHAT) true rfl

/-- C8 (confirmed): a function descriptor with a blank or missing name is
silently skipped: the assembled tool list, and the whole dispatched
request, are those of the remaining descriptors, with no error raised. -/
theorem c8_blank_name_skipped (parse : String → Except String String) (cfg : Cfg)
    (model : ModelItem) (stream : Bool) (maxT : Int) (sys prompt : String) (now : Int)
    (vb ab : String → String) (tk : List Msg → Int)
    (items : List CtxItem) (s : RState)
    (pre post : List FunctionDef) (f : FunctionDef)
    (hb : blankName f = true) :
    buildFunctionTools parse (pre ++ f :: post) = buildFunctionTools parse (pre ++ post)
    ∧ send parse cfg model stream (some (pre ++ f :: post)) maxT sys prompt now vb ab tk items s
      = send parse cfg model stream (some (pre ++ post)) maxT sys prompt now vb ab tk items s := by
  have hmain : buildFunctionTools parse (pre ++ f :: post)
      = buildFunctionTools parse (pre ++ post) := by
    induction pre with
    | nil =>
      simp only [List.nil_append]
      conv_lhs => rw [buildFunctionTools]
      rw [if_pos hb]
    | cons g rest ih =>
      simp only [List.cons_append]
      rw [buildFunctionTools, buildFunctionTools, ih]
  refine ⟨hmain, ?_⟩
  simp only [send, assembleKwargs]
  rw [hmain]

/-- Witness for C8 skipping a whitespace-named descriptor. -/
theorem c8_witness :
    blankName { name := some " ", params := none, desc := "d" } = true
    ∧ (buildFunctionTools parse0
         ([{ name := some "f1", params := none, desc := "" }]
           ++ { name := some " ", params := none, desc := "d" } :: [])
       = buildFunctionTools parse0 ([{ name := some "f1", params := none, desc := "" }] ++ [])
       ∧ send parse0 cfgAll mdl0 false
           (some ([{ name := some "f1", params := none, desc := "" }]
             ++ { name := some " ", params := none, desc := "d" } :: [])) 0 "" "p" 0 id id
           (fun _ => 0) [] initState
         = send parse0 cfgAll mdl0 false
             (some ([{ name := some "f1", params := none, desc := "" }] ++ [])) 0 "" "p" 0 id id
             (fun _ => 0) [] initState) :=
  ⟨by decide,
   c8_blank_name_skipped parse0 cfgAll mdl0 false 0 "" "p" 0 id id (fun _ => 0) [] initState
     [{ name := some "f1", params := none, desc := "" }] []
     { name := some " ", params := none, desc := "d" } (by decide)⟩

/-- C9 counterexample: a descriptor whose params string is non-empty and
invalid JSON but whose name is blank is skipped before parsing, so `send`
succeeds and the external call proceeds, refuting the claim as stated. -/
theorem c9_counterexample :
    parse0 "x" = .error "Expecting value"
    ∧ blankName { name := some "", params := some "x", desc := "" } = true
    ∧ send parse0 cfgOff mdl0 false (some [{ name := some "", params := some "x", desc := "" }])
        0 "" "p" 0 id id (fun _ => 0) [] initState
      = .ok ⟨[ Msg.chat "user" "p" none], "gpt-4o", false, []⟩ :=
  ⟨rfl, by decide, rfl⟩

/-- C9 (amended): for every function descriptor whose name is not blank and
whose params string is non-empty and fails to parse as JSON, `send`
propagates a parse failure: tool assembly and the whole dispatch return an
error and no request descriptor is ever produced. -/
theorem c9_bad_params_abort (parse : String → Except String String) (cfg : Cfg)
    (model : ModelItem) (stream : Bool) (maxT : Int) (sys prompt : String) (now : Int)
    (vb ab : String → String) (tk : List Msg → Int) (items : List CtxItem) (s : RState)
    (fs : List FunctionDef) (f : FunctionDef) (p e : String)
    (hf : f ∈ fs) (hb : blankName f = false) (hp : f.params = some p) (hne : p ≠ "")
    (herr : parse p = .error e) :
    (∃ e2, buildFunctionTools parse fs = .error e2)
    ∧ ∃ e3, send parse cfg model stream (some fs) maxT sys prompt now vb ab tk items s
        = .error e3 := by
  have hmain : ∃ e2, buildFunctionTools parse fs = .error e2 := by
    induction fs with
    | nil => simp at hf
    | cons g rest ih =>
      rcases List.mem_cons.mp hf with rfl | hmem
      · refine ⟨e, ?_⟩
        rw [buildFunctionTools, if_neg (by simp [hb])]
        simp only [hp]
        rw [if_pos hne, herr]
      · by_cases hbg : blankName g = true
        · obtain ⟨e2, h2⟩ := ih hmem
          exact ⟨e2, by rw [buildFunctionTools, if_pos hbg]; exact h2⟩
        · rw [buildFunctionTools, if_neg hbg]
          cases hg : (match g.params with
                     | some q => if q ≠ "" then parse q else .ok "{}"
                     | none => .ok "{}") with
          | error e4 => exact ⟨e4, rfl⟩
          | ok ps =>
            obtain ⟨e2, h2⟩ := ih hmem
            rw [h2]
            exact ⟨e2, rfl⟩
  obtain ⟨e2, h2⟩ := hmain
  refine ⟨⟨e2, h2⟩, e2, ?_⟩
  unfold send assembleKwargs
  simp only []
  simp [h2]

/-- Witness for C9 at a concrete descriptor with invalid params. -/
theorem c9_witness :
    (∃ e2, buildFunctionTools parse0 [{ name := some "fn", params := some "x", desc := "" }]
        = .error e2)
    ∧ ∃ e3, send parse0 cfgOff mdl0 false
        (some [{ name := some "fn", params := some "x", desc := "" }]) 0 "" "p" 0 id id
        (fun _ => 0) [] initState = .error e3 :=
  c9_bad_params_abort parse0 cfgOff mdl0 false 0 "" "p" 0 id id (fun _ => 0) [] initState
    [{ name := some "fn", params := some "x", desc := "" }]
    { name := some "fn", params := some "x", desc := "" } "x" "Expecting value"
    (by decide) (by decide) rfl (by decide) rfl

/-- C10 (confirmed): for every history turn replayed on an audio-capable
model with non-empty output and stored audio id `a1`, the emitted
assistant record carries the audio id exactly as the expiry timestamp
dictates: attached when later than the current time, omitted when in the
past. -/
theorem c10_audio_expiry (model : ModelItem) (now t : Int) (s : RState) (acc : BuildAcc)
    (item : CtxItem) (o : String) (isLast native : Bool)
    (hmode : MODE_AUDIO ∈ model.mode)
    (hout : item.final_output = some o) (ho : o ≠ "")
    (hid : item.audio_id = some "a1") (hts : item.audio_expires_ts = some t)
    (hnow : 0 ≤ now) :
    (t > now → audioAttach model now s item = some "a1")
    ∧ (t < now → audioAttach model now s item = none)
    ∧ Msg.chat "assistant" o (audioAttach model now s item)
        ∈ (processItem model now native s isLast acc item).msgs := by
  refine ⟨?_, ?_, processItem_assistant_mem model now native s isLast acc item o hout ho⟩
  · intro hgt
    unfold audioAttach
    rw [if_pos hmode]
    have htr : truthyS item.audio_id = true := by simp [hid, truthyS]
    rw [if_pos htr]
    rw [hts]
    simp only [Option.getD_some]
    rw [if_pos ⟨by omega, hgt⟩]
    exact hid
  · intro hlt
    unfold audioAttach
    rw [if_pos hmode]
    have htr : truthyS item.audio_id = true := by simp [hid, truthyS]
    rw [if_pos htr]
    rw [hts]
    simp only [Option.getD_some]
    rw [if_neg (by omega : ¬(t ≠ 0 ∧ t > now))]

/-- Witness for C10 with a future expiry at a concrete turn. -/
theorem c10_witness :
    ((5000 : Int) > 1000 → audioAttach mdlAudio 1000 initState audioItem = some "a1")
    ∧ ((5000 : Int) < 1000 → audioAttach mdlAudio 1000 initState audioItem = none)
    ∧ Msg.chat "assistant" "hello" (audioAttach mdlAudio 1000 initState audioItem)
        ∈ (processItem mdlAudio 1000 true initState true ⟨[], false, none⟩ audioItem).msgs :=
  c10_audio_expiry mdlAudio 1000 5000 initState ⟨[], false, none⟩ audioItem "hello" true true
    (by decide) rfl (by decide) rfl rfl (by decide)

end PyGPT
